import Mathlib

/-!
Verification of the fixed-grid chunked reprojection engine of the
disasters-aws-conversion repository.

The development shallowly embeds the relevant Python source:

* `src/core/validation.py`          — `check_and_fix_nan_values`
* `src/processors/chunk_processor.py` — `calculate_chunk_grid`,
  `process_single_chunk`, `process_band_with_chunks`
* `src/configs/chunk_configs.py`    — the configuration selectors
* `src/core/reprojection.py` and `src/lib/core/reprojection.py`
  — `process_with_fixed_chunks`, `process_whole_file`
* `src/utils/error_handling.py`     — `retry_with_download`
* `src/lib/main_processor.py`       — `convert_to_cog`'s retry handler and
  its resampling call sites

Machine floating-point values are modelled symbolically: the code under
verification only ever tests `np.isnan` / `np.isinf` and substitutes a
sentinel, so a value is either NaN, +Inf, -Inf, or an ordinary finite
number (carried as a rational).
-/

/-- Symbolic model of a numpy floating-point cell value: the source only
inspects NaN-ness and infiniteness and never does arithmetic on cells. -/
inductive FVal where
  | nan
  | inf
  | ninf
  | finite (v : ℚ)
deriving DecidableEq

/-- Model of `np.isnan` on one cell. -/
def FVal.isNaN : FVal → Bool
  | .nan => true
  | _ => false

/-- Model of `np.isinf` on one cell (true for both infinities). -/
def FVal.isInf : FVal → Bool
  | .inf => true
  | .ninf => true
  | _ => false

/-- Embedding of `check_and_fix_nan_values` (src/core/validation.py,
lines 75-117).  The buffer is flattened to a list of cells; `dtypeIsFloat`
models `np.issubdtype(dtype, np.floating)`.  NaN cells are replaced first,
then infinity cells are replaced in the already-rewritten buffer, exactly
as the two successive `np.where` passes do; the returned flag is the
source's `had_nan`. -/
def check_and_fix_nan_values (data : List FVal) (nodata_value : FVal)
    (dtypeIsFloat : Bool) : List FVal × Bool :=
  if dtypeIsFloat then
    let hasNan := data.any FVal.isNaN
    let data1 := if hasNan then data.map (fun e => if e.isNaN then nodata_value else e) else data
    let hasInf := data1.any FVal.isInf
    let data2 := if hasInf then data1.map (fun e => if e.isInf then nodata_value else e) else data1
    (data2, hasNan || hasInf)
  else
    (data, false)

/-- Pointwise specification of one NaN/Inf sanitization pass. -/
def nanInfFix (nd : FVal) (e : FVal) : FVal :=
  if e.isNaN || e.isInf then nd else e

/-- A rasterio `Window(col_off, row_off, width, height)` in destination
pixel space. -/
structure Window where
  col_off : ℕ
  row_off : ℕ
  width : ℕ
  height : ℕ
deriving DecidableEq

/-- Pixel `(px, py)` lies inside window `w`. -/
def winContains (w : Window) (px py : ℕ) : Prop :=
  w.col_off ≤ px ∧ px < w.col_off + w.width ∧
  w.row_off ≤ py ∧ py < w.row_off + w.height

instance (w : Window) (px py : ℕ) : Decidable (winContains w px py) := by
  unfold winContains; infer_instance

/-- One entry of the grid dictionary built by `calculate_chunk_grid`. -/
structure ChunkEntry where
  index : ℕ × ℕ
  window : Window
  coords : ℕ × ℕ × ℕ × ℕ
deriving DecidableEq

/-- The grid dictionary built by `calculate_chunk_grid`. -/
structure ChunkGrid where
  chunk_size : ℕ
  chunks_x : ℕ
  chunks_y : ℕ
  total_chunks : ℕ
  chunks : List ChunkEntry
deriving DecidableEq

/-- The entry appended for grid position `(x_idx, y_idx)` in
`calculate_chunk_grid`'s generation loop. -/
def mkChunkEntry (width height chunk_size x_idx y_idx : ℕ) : ChunkEntry :=
  let x := x_idx * chunk_size
  let y := y_idx * chunk_size
  let w := min chunk_size (width - x)
  let h := min chunk_size (height - y)
  { index := (x_idx, y_idx)
    window := ⟨x, y, w, h⟩
    coords := (x, y, w, h) }

/-- Embedding of `calculate_chunk_grid` (src/processors/chunk_processor.py,
lines 125-161): ceil-divided chunk counts and the row-major generation loop
(`y_idx` outer, `x_idx` inner), with edge windows clipped by
`min(chunk_size, width - x)` / `min(chunk_size, height - y)`. -/
def calculate_chunk_grid (width height chunk_size : ℕ) : ChunkGrid :=
  let cx := (width + chunk_size - 1) / chunk_size
  let cy := (height + chunk_size - 1) / chunk_size
  { chunk_size := chunk_size
    chunks_x := cx
    chunks_y := cy
    total_chunks := cx * cy
    chunks := (List.range cy).flatMap fun y_idx =>
      (List.range cx).map fun x_idx =>
        mkChunkEntry width height chunk_size x_idx y_idx }

/-- Row-major (raster scan) strict ordering on grid entries. -/
def entryLt (e1 e2 : ChunkEntry) : Prop :=
  e1.window.row_off < e2.window.row_off ∨
    (e1.window.row_off = e2.window.row_off ∧ e1.window.col_off < e2.window.col_off)

instance (e1 e2 : ChunkEntry) : Decidable (entryLt e1 e2) := by
  unfold entryLt; infer_instance


/-- Python's `if dst_nodata is None: dst_nodata = src_nodata` resolution
of the destination sentinel. -/
def resolveNodata (src_nodata dst_nodata : Option FVal) : Option FVal :=
  match dst_nodata with
  | none => src_nodata
  | some v => some v
/-- Character-list `needle` matches `hay` at its head. -/
def charsMatchAt : List Char → List Char → Bool
  | [], _ => true
  | _ :: _, [] => false
  | c :: cs, d :: ds => c == d && charsMatchAt cs ds

/-- Character-list substring test (model of Python's `in` on strings). -/
def charsHasSub (needle : List Char) : List Char → Bool
  | [] => charsMatchAt needle []
  | d :: ds => charsMatchAt needle (d :: ds) || charsHasSub needle ds

/-- String substring test: `strHasSub n h` models Python `n in h`. -/
def strHasSub (needle hay : String) : Bool :=
  charsHasSub needle.data hay.data

/-- Model of Python `str.lower()` (per-character lowering). -/
def lowerStr (s : String) : String :=
  String.mk (s.data.map Char.toLower)

/-- The exception message raised for the distinguished streaming signal
(`raise Exception("STREAMING_CHUNK_ERROR: Need to retry with download")`,
src/core/reprojection.py lines 166 and 220). -/
def streamingChunkErrorMsg : String :=
  "STREAMING_CHUNK_ERROR: Need to retry with download"

/-- Streaming classification on the sub-chunk path
(src/core/reprojection.py line 164, src/lib/core/reprojection.py line 270):
the raise fires iff the lowered failure text contains "chunk and warp" and
the source handle's name contains "/vsis3/". -/
def subStreamingTrigger (msg srcName : String) : Bool :=
  strHasSub "chunk and warp" (lowerStr msg) && strHasSub "/vsis3/" srcName

/-- Streaming classification on the direct full-chunk path
(src/core/reprojection.py lines 213-220, src/lib/core/reprojection.py
lines 319-326): the raise fires iff the lowered failure text contains
"curl", "vsi" or "chunk and warp" and the source name contains "/vsis3/". -/
def directStreamingTrigger (msg srcName : String) : Bool :=
  (strHasSub "curl" (lowerStr msg) || strHasSub "vsi" (lowerStr msg) ||
   strHasSub "chunk and warp" (lowerStr msg)) && strHasSub "/vsis3/" srcName

/-- Chunk-processing configuration dictionary (src/configs/chunk_configs.py);
every key the engine reads via `.get` is present as a field, so the source's
`.get` defaults are irrelevant to behavior. -/
structure ChunkConfig where
  default_chunk_size : ℕ
  memory_limit_mb : ℚ
  show_progress : Bool
  enable_memory_monitoring : Bool
  use_streaming : Bool
  adaptive_chunks : Bool
  aggressive_gc : Bool
  single_band_mode : Bool
  cleanup_immediate : Bool
  max_retries : ℕ
  use_whole_file_processing : Bool
  min_chunk_size : Option ℕ
  max_chunk_size : Option ℕ
deriving DecidableEq

/-- Embedding of `get_fixed_chunk_config` (src/configs/chunk_configs.py,
lines 66-91). -/
def get_fixed_chunk_config (chunk_size : ℕ) (memory_limit_mb : ℚ) : ChunkConfig :=
  { default_chunk_size := chunk_size
    memory_limit_mb := memory_limit_mb
    show_progress := true
    enable_memory_monitoring := true
    use_streaming := false
    adaptive_chunks := false
    aggressive_gc := true
    single_band_mode := true
    cleanup_immediate := true
    max_retries := 3
    use_whole_file_processing := false
    min_chunk_size := some chunk_size
    max_chunk_size := some chunk_size }

/-- Embedding of `get_chunk_config` (src/configs/chunk_configs.py,
lines 7-40); file size is in GB as a rational. -/
def get_chunk_config (file_size_gb memory_limit_mb : ℚ) : ChunkConfig :=
  if 7 < file_size_gb then get_fixed_chunk_config 256 150
  else if 3 < file_size_gb then get_fixed_chunk_config 256 250
  else if (3 : ℚ) / 2 < file_size_gb then get_fixed_chunk_config 512 300
  else
    { default_chunk_size := 256
      memory_limit_mb := memory_limit_mb
      show_progress := true
      enable_memory_monitoring := false
      use_streaming := false
      adaptive_chunks := false
      aggressive_gc := false
      single_band_mode := false
      cleanup_immediate := false
      max_retries := 3
      use_whole_file_processing := true
      min_chunk_size := none
      max_chunk_size := none }

/-- Embedding of `get_adaptive_chunk_config` (src/configs/chunk_configs.py,
lines 43-63). -/
def get_adaptive_chunk_config (memory_limit_mb : ℚ) : ChunkConfig :=
  { default_chunk_size := 1024
    memory_limit_mb := memory_limit_mb
    show_progress := true
    enable_memory_monitoring := true
    use_streaming := true
    adaptive_chunks := true
    aggressive_gc := false
    single_band_mode := false
    cleanup_immediate := false
    max_retries := 3
    use_whole_file_processing := false
    min_chunk_size := some 128
    max_chunk_size := some 2048 }

/-- Embedding of `get_memory_safe_config` (src/configs/chunk_configs.py,
lines 94-114). -/
def get_memory_safe_config : ChunkConfig :=
  { default_chunk_size := 128
    memory_limit_mb := 100
    show_progress := true
    enable_memory_monitoring := true
    use_streaming := false
    adaptive_chunks := false
    aggressive_gc := true
    single_band_mode := true
    cleanup_immediate := true
    max_retries := 5
    use_whole_file_processing := false
    min_chunk_size := some 128
    max_chunk_size := some 128 }

/-- Resampling methods used by the reprojection call sites. -/
inductive Resampling where
  | nearest
  | bilinear
  | average
deriving DecidableEq

/-- Observable actions of one engine run, in program order.  Buffer cells
are not tracked (the reprojection primitive is external); what is recorded
is exactly what the claims talk about: allocations and their fill value,
reprojection-call arguments, recovery fills, NaN-fix invocations, writes,
memory samples and the subdivision decision. -/
inductive Event where
  | memSample (value : ℚ)
  | subdivideDecision (outer : Window) (entered : Bool)
  | alloc (w : Window) (rows cols : ℕ) (fill : FVal)
  | rpCall (w : Window) (resampling : Resampling)
      (src_nodata dst_nodata : Option FVal)
  | fillNodata (w : Window) (fill : FVal)
  | nanFix (w : Window) (nd : Option FVal)
  | write (band : ℕ) (w : Window)
deriving DecidableEq

/-- External environment: the stream of `get_memory_usage()` readings and
the outcome of each successive call to the external `reproject` primitive
(`none` = success, `some msg` = the raised error's message). -/
structure Env where
  mem : ℕ → ℚ
  rp : ℕ → Option String

/-- Engine run state: counters into the environment streams, the emitted
events, and the pending uncaught exception (if any). -/
structure St where
  memIdx : ℕ
  rpIdx : ℕ
  events : List Event
  err : Option String

/-- Fresh state at the start of a run. -/
def St.init : St := ⟨0, 0, [], none⟩

/-- Python's `nd if nd is not None else 0` buffer-fill value. -/
def fillValue (nd : Option FVal) : FVal := nd.getD (FVal.finite 0)

/-- Model of Python `range(0, stop, step)` for a positive step. -/
def rangeStep (stop step : ℕ) : List ℕ :=
  (List.range ((stop + step - 1) / step)).map (· * step)

/-- The sub-chunk windows generated for one outer chunk
(src/core/reprojection.py lines 124-136): `sub_y` outer, `sub_x` inner,
step and clip at the hard-coded `sub_chunk_size = 128`, origins offset by
the outer chunk's `(chunk_x, chunk_y)`. -/
def subWindows (chunk_x chunk_y win_width win_height : ℕ) : List Window :=
  (rangeStep win_height 128).flatMap fun sub_y =>
    (rangeStep win_width 128).map fun sub_x =>
      ⟨chunk_x + sub_x, chunk_y + sub_y,
       min 128 (win_width - sub_x), min 128 (win_height - sub_y)⟩

/-- The outer chunk origins visited by the engine's double loop
(src/core/reprojection.py lines 112-113), as `(chunk_x, chunk_y)` pairs in
iteration order (`chunk_y` outer, `chunk_x` inner). -/
def outerPositions (width height chunk_size : ℕ) : List (ℕ × ℕ) :=
  (rangeStep height chunk_size).flatMap fun chunk_y =>
    (rangeStep width chunk_size).map fun chunk_x => (chunk_x, chunk_y)

/-- The outer window at origin `(chunk_x, chunk_y)` with edge clipping
(src/core/reprojection.py lines 115-116). -/
def outerWindow (width height chunk_size chunk_x chunk_y : ℕ) : Window :=
  ⟨chunk_x, chunk_y,
   min chunk_size (width - chunk_x), min chunk_size (height - chunk_y)⟩

/-- All outer windows of a run, in iteration order. -/
def outerWindows (width height chunk_size : ℕ) : List Window :=
  (outerPositions width height chunk_size).map fun p =>
    outerWindow width height chunk_size p.1 p.2

/-- One attempt to reproject one (sub-)chunk window, shared shape of the
two source blocks (sub-chunk: src/lib/core/reprojection.py lines 244-287;
direct: lines 292-342), parameterized by that path's streaming trigger:
allocate and pre-fill the buffer, call `reproject` with nearest
resampling and both sentinels, then on failure either raise the streaming
signal or fill with the destination sentinel and carry on; finally run the
NaN fix and write the window. -/
def chunkAttempt (trigger : String → String → Bool) (env : Env)
    (srcName : String) (src_nodata dst_nodata : Option FVal)
    (band : ℕ) (w : Window) (st : St) : St :=
  if st.err.isSome then st else
  let fill := fillValue dst_nodata
  let st1 : St := { st with
    events := st.events ++ [Event.alloc w w.height w.width fill] }
  let outcome := env.rp st1.rpIdx
  let st2 : St := { st1 with
    rpIdx := st1.rpIdx + 1
    events := st1.events ++ [Event.rpCall w Resampling.nearest src_nodata dst_nodata] }
  match outcome with
  | none =>
      { st2 with events := st2.events ++ [Event.nanFix w dst_nodata, Event.write band w] }
  | some msg =>
      if trigger msg srcName then
        { st2 with err := some streamingChunkErrorMsg }
      else
        { st2 with events := st2.events ++
            [Event.fillNodata w fill, Event.nanFix w dst_nodata, Event.write band w] }

/-- The sub-chunk body (memory-pressure path). -/
def processSubChunk (env : Env) (srcName : String)
    (src_nodata dst_nodata : Option FVal) (band : ℕ) (w : Window) (st : St) : St :=
  chunkAttempt subStreamingTrigger env srcName src_nodata dst_nodata band w st

/-- The direct full-chunk body. -/
def processDirectChunk (env : Env) (srcName : String)
    (src_nodata dst_nodata : Option FVal) (band : ℕ) (w : Window) (st : St) : St :=
  chunkAttempt directStreamingTrigger env srcName src_nodata dst_nodata band w st

/-- One outer chunk (src/core/reprojection.py lines 112-236): clip the
window, freshly sample process memory, and either subdivide into 128-pixel
sub-chunks (when over the memory limit and both dimensions exceed 128) or
process the outer window directly. -/
def processChunk (env : Env) (srcName : String)
    (src_nodata dst_nodata : Option FVal) (memory_limit_mb : ℚ)
    (band width height chunk_size : ℕ) (pos : ℕ × ℕ) (st : St) : St :=
  if st.err.isSome then st else
  let chunk_x := pos.1
  let chunk_y := pos.2
  let win_width := min chunk_size (width - chunk_x)
  let win_height := min chunk_size (height - chunk_y)
  let current_memory := env.mem st.memIdx
  let entered := decide (memory_limit_mb < current_memory ∧
    128 < win_width ∧ 128 < win_height)
  let st1 : St := { st with
    memIdx := st.memIdx + 1
    events := st.events ++ [Event.memSample current_memory,
      Event.subdivideDecision ⟨chunk_x, chunk_y, win_width, win_height⟩ entered] }
  if entered then
    (subWindows chunk_x chunk_y win_width win_height).foldl
      (fun s w => processSubChunk env srcName src_nodata dst_nodata band w s) st1
  else
    processDirectChunk env srcName src_nodata dst_nodata band
      ⟨chunk_x, chunk_y, win_width, win_height⟩ st1

/-- One band (src/core/reprojection.py lines 107-249): the chunk double
loop, then a memory report sample when monitoring is enabled.  A pending
exception short-circuits everything (the band-end code never runs). -/
def processBand (env : Env) (srcName : String)
    (src_nodata dst_nodata : Option FVal) (cfg : ChunkConfig)
    (width height chunk_size band : ℕ) (st : St) : St :=
  let st1 := (outerPositions width height chunk_size).foldl
    (fun s p => processChunk env srcName src_nodata dst_nodata
      cfg.memory_limit_mb band width height chunk_size p s) st
  if st1.err.isSome then st1 else
  if cfg.enable_memory_monitoring then
    { st1 with
      memIdx := st1.memIdx + 1
      events := st1.events ++ [Event.memSample (env.mem st1.memIdx)] }
  else st1

/-- Embedding of `process_with_fixed_chunks`
(src/lib/core/reprojection.py lines 171-358; the src/core/reprojection.py
variant of lines 70-249 is the special case `dst_nodata = none`, which the
first line below resolves to `src_nodata` exactly as the source's
`if dst_nodata is None: dst_nodata = src_nodata` does).  Bands run in
order `1..src_count`. -/
def process_with_fixed_chunks (env : Env) (srcName : String)
    (src_count width height chunk_size : ℕ) (src_nodata : Option FVal)
    (cfg : ChunkConfig) (dst_nodata : Option FVal) : St :=
  let dstNd := resolveNodata src_nodata dst_nodata
  (List.range src_count).foldl
    (fun st b => processBand env srcName src_nodata dstNd cfg
      width height chunk_size (b + 1) st)
    St.init

/-- Embedding of `process_whole_file` (src/lib/core/reprojection.py lines
16-86): per band, allocate a full-size buffer pre-filled with the
destination sentinel (or 0), reproject the whole band with nearest
resampling and both sentinels, write it; any failure re-raises the
original message unmodified. -/
def process_whole_file (env : Env) (src_count width height : ℕ)
    (src_nodata dst_nodata : Option FVal) : St :=
  let dstNd := resolveNodata src_nodata dst_nodata
  (List.range src_count).foldl
    (fun st b =>
      if st.err.isSome then st else
      let w : Window := ⟨0, 0, width, height⟩
      let st1 : St := { st with
        events := st.events ++ [Event.alloc w height width (fillValue dstNd)] }
      let st2 : St := { st1 with
        rpIdx := st1.rpIdx + 1
        events := st1.events ++ [Event.rpCall w Resampling.nearest src_nodata dstNd] }
      match env.rp st1.rpIdx with
      | none => { st2 with events := st2.events ++ [Event.write (b + 1) w] }
      | some msg => { st2 with err := some msg })
    St.init

/-- Trigger of `retry_with_download`'s handler
(src/utils/error_handling.py line 77): `"STREAMING_CHUNK_ERROR" in str(e)`. -/
def retry_trigger (msg : String) : Bool :=
  strHasSub "STREAMING_CHUNK_ERROR" msg

/-- Embedding of `retry_with_download` (src/utils/error_handling.py lines
54-82) for a callee taking the chunk configuration: on a failure whose
message carries the streaming signal, rerun the callee once on a copy of
the configuration with `use_streaming` disabled; any other failure is
re-raised. -/
def retry_with_download {α : Type} (f : ChunkConfig → Except String α)
    (cfg : ChunkConfig) : Except String α :=
  match f cfg with
  | Except.ok a => Except.ok a
  | Except.error e =>
      if retry_trigger e then f { cfg with use_streaming := false }
      else Except.error e

/-- The catch condition of `convert_to_cog`'s retry handler
(src/lib/main_processor.py lines 552-555): the lowered message contains
"streaming_chunk_error" or "chunk and warp", and the configuration has
`use_streaming` enabled. -/
def convert_retry_condition (msg : String) (cfg : ChunkConfig) : Bool :=
  (strHasSub "streaming_chunk_error" (lowerStr msg) ||
   strHasSub "chunk and warp" (lowerStr msg)) && cfg.use_streaming

/-- The configuration rebuilt for the retry
(src/lib/main_processor.py lines 558-559): a copy with `use_streaming`
disabled; the original dictionary is left untouched. -/
def convert_retry_config (cfg : ChunkConfig) : ChunkConfig :=
  { cfg with use_streaming := false }

/-- One direct reprojection call site in `convert_to_cog`
(src/lib/main_processor.py), outside the two delegated processors embedded
above. -/
structure ReprojectCallSite where
  site : String
  resampling : Resampling
  chunked : Bool
  whole_file_single_pass : Bool
deriving DecidableEq

/-- The direct reprojection call sites of `convert_to_cog`: the
nodata-remapping whole-band `reproject` (line 328-335) and the `WarpedVRT`
single-pass reprojection (lines 359-362), both on the non-chunked
rio-cogeo whole-file fast path.  All other reprojection in
`convert_to_cog` is delegated to `process_whole_file` or
`process_with_fixed_chunks`, embedded above. -/
def convert_to_cog_reproject_sites : List ReprojectCallSite :=
  [ { site := "lib/main_processor.py:328 nodata-remap whole-band reproject"
      resampling := Resampling.bilinear
      chunked := false
      whole_file_single_pass := true }
  , { site := "lib/main_processor.py:360 WarpedVRT single-pass reprojection"
      resampling := Resampling.bilinear
      chunked := false
      whole_file_single_pass := true } ]

/-- The windows of the alloc events of a trace, in order. -/
def allocWindows (evts : List Event) : List Window :=
  evts.filterMap fun e =>
    match e with
    | Event.alloc w _ _ _ => some w
    | _ => none

/-- Per-event no-data discipline of an engine run: buffers are allocated
with the window's shape and pre-filled with the resolved destination
sentinel (or 0), every reprojection call passes the source and destination
sentinels independently with nearest resampling, recovery fills use the
destination sentinel, and the NaN fix receives the destination sentinel. -/
def eventNodataOk (src_nodata dstNd : Option FVal) : Event → Prop
  | Event.alloc w rows cols fill =>
      rows = w.height ∧ cols = w.width ∧ fill = fillValue dstNd
  | Event.rpCall _ r s d =>
      r = Resampling.nearest ∧ s = src_nodata ∧ d = dstNd
  | Event.fillNodata _ fill => fill = fillValue dstNd
  | Event.nanFix _ nd => nd = dstNd
  | _ => True

/-- Environment in which every reprojection call succeeds and memory reads
zero. -/
def envOkAll : Env := { mem := fun _ => 0, rp := fun _ => none }

/-- Environment in which every reprojection call raises "curl timeout". -/
def envCurlFail : Env := { mem := fun _ => 0, rp := fun _ => some "curl timeout" }

/-- Environment in which every reprojection call raises a "chunk and warp"
error. -/
def envCwFail : Env :=
  { mem := fun _ => 0, rp := fun _ => some "GDAL chunk and warp failed" }

/-- Embedding of `process_single_chunk` (src/processors/chunk_processor.py,
lines 11-44): read the chunk (a fallible external call), optionally apply
the processing function (also fallible); any exception is caught and turned
into `None`. -/
def process_single_chunk {α : Type} (readChunk : Window → Except String α)
    (processing_func : Option (α → Except String α)) (w : Window) : Option α :=
  match readChunk w with
  | Except.error _ => none
  | Except.ok d =>
      match processing_func with
      | none => some d
      | some f =>
          match f d with
          | Except.error _ => none
          | Except.ok d2 => some d2

/-- The chunk windows visited by `process_band_with_chunks`'s double loop
(src/processors/chunk_processor.py lines 68-73), in iteration order. -/
def bandWindows (width height chunk_size : ℕ) : List Window :=
  (rangeStep height chunk_size).flatMap fun y =>
    (rangeStep width chunk_size).map fun x =>
      ⟨x, y, min chunk_size (width - x), min chunk_size (height - y)⟩

/-- Loop state of `process_band_with_chunks`: the chunk counters, the
destination writes performed so far, and whether the surrounding
`try` has been aborted by a write failure. -/
structure BandSt (α : Type) where
  total_chunks : ℕ
  processed_chunks : ℕ
  writes : List (Window × α)
  aborted : Bool

/-- One iteration of `process_band_with_chunks`'s loop
(src/processors/chunk_processor.py lines 75-93): count the chunk, process
it, and on a non-`None` result write it (a write failure escapes to the
function-level handler, modeled by `aborted`). -/
def bandStep {α : Type} (readChunk : Window → Except String α)
    (processing_func : Option (α → Except String α))
    (writeChunk : Window → α → Except String Unit)
    (st : BandSt α) (w : Window) : BandSt α :=
  if st.aborted then st else
  let st1 : BandSt α := { st with total_chunks := st.total_chunks + 1 }
  match process_single_chunk readChunk processing_func w with
  | none => st1
  | some d =>
      match writeChunk w d with
      | Except.error _ => { st1 with aborted := true }
      | Except.ok _ =>
          { st1 with
            processed_chunks := st1.processed_chunks + 1
            writes := st1.writes ++ [(w, d)] }

/-- Embedding of `process_band_with_chunks`
(src/processors/chunk_processor.py lines 47-102): runs the loop and
returns the source's boolean result (`processed_chunks == total_chunks`,
or `False` when an exception reached the function-level handler) together
with the destination writes performed. -/
def process_band_with_chunks {α : Type} (readChunk : Window → Except String α)
    (processing_func : Option (α → Except String α))
    (writeChunk : Window → α → Except String Unit)
    (width height chunk_size : ℕ) : Bool × List (Window × α) :=
  let final := (bandWindows width height chunk_size).foldl
    (bandStep readChunk processing_func writeChunk) ⟨0, 0, [], false⟩
  (if final.aborted then false
   else final.processed_chunks == final.total_chunks, final.writes)

/-- A chunk is processed successfully: reading and processing produce a
value and the destination write succeeds. -/
def chunkSuccess {α : Type} (readChunk : Window → Except String α)
    (processing_func : Option (α → Except String α))
    (writeChunk : Window → α → Except String Unit) (w : Window) : Prop :=
  ∃ d, process_single_chunk readChunk processing_func w = some d ∧
    writeChunk w d = Except.ok ()
lemma map_if_id_of_not_any {p : FVal → Bool} {nd : FVal} {l : List FVal}
    (h : l.any p = false) :
    l.map (fun e => if p e then nd else e) = l := by
  induction l with
  | nil => rfl
  | cons a t ih =>
      simp only [List.any_cons, Bool.or_eq_false_iff] at h
      simp [h.1, ih h.2]

lemma if_any_replace (p : FVal → Bool) (nd : FVal) (l : List FVal) :
    (if l.any p = true then l.map (fun e => if p e then nd else e) else l)
      = l.map (fun e => if p e then nd else e) := by
  by_cases h : l.any p = true
  · rw [if_pos h]
  · rw [if_neg h, map_if_id_of_not_any (by simpa using h)]

lemma check_and_fix_fst (data : List FVal) (nd : FVal) :
    (check_and_fix_nan_values data nd true).1 = data.map (nanInfFix nd) := by
  have hEq : (check_and_fix_nan_values data nd true).1 =
      (if (if data.any FVal.isNaN = true
            then data.map (fun e => if e.isNaN then nd else e) else data).any FVal.isInf = true
       then (if data.any FVal.isNaN = true
            then data.map (fun e => if e.isNaN then nd else e) else data).map
              (fun e => if e.isInf then nd else e)
       else (if data.any FVal.isNaN = true
            then data.map (fun e => if e.isNaN then nd else e) else data)) := rfl
  rw [hEq, if_any_replace FVal.isNaN nd data,
      if_any_replace FVal.isInf nd (data.map (fun e => if e.isNaN then nd else e)),
      List.map_map]
  apply List.map_congr_left
  intro e _
  cases e <;> cases nd <;> simp [nanInfFix, FVal.isNaN, FVal.isInf]

lemma nanInfFix_idem (nd e : FVal) :
    nanInfFix nd (nanInfFix nd e) = nanInfFix nd e := by
  cases e <;> cases nd <;> simp [nanInfFix, FVal.isNaN, FVal.isInf]

/-- C7.  NaN/Inf sanitization: for floating-point dtypes,
`check_and_fix_nan_values` rewrites every NaN and every infinity cell to
the no-data sentinel and leaves every other cell unchanged (its output is
the pointwise `nanInfFix` map), and applying it twice gives the same
buffer as applying it once, for every buffer and every sentinel. -/
theorem nan_inf_sanitization_and_idempotence (data : List FVal) (nd : FVal) :
    (check_and_fix_nan_values data nd true).1 = data.map (nanInfFix nd) ∧
    (check_and_fix_nan_values (check_and_fix_nan_values data nd true).1 nd true).1 =
      (check_and_fix_nan_values data nd true).1 := by
  refine ⟨check_and_fix_fst data nd, ?_⟩
  rw [check_and_fix_fst, check_and_fix_fst, List.map_map]
  apply List.map_congr_left
  intro e _
  exact nanInfFix_idem nd e

lemma lt_ceil_iff {a w cs : ℕ} (hcs : 0 < cs) :
    a < (w + cs - 1) / cs ↔ a * cs < w := by
  rcases Nat.eq_zero_or_pos w with hw | hw
  · subst hw
    rw [Nat.zero_add, Nat.div_eq_of_lt (Nat.sub_lt hcs Nat.one_pos)]
    omega
  · constructor
    · intro h
      have h1 : (a + 1) * cs ≤ w + cs - 1 := (Nat.le_div_iff_mul_le hcs).mp h
      rw [Nat.succ_mul] at h1
      omega
    · intro h
      refine (Nat.le_div_iff_mul_le hcs).mpr ?_
      rw [Nat.succ_mul]
      omega

lemma mem_chunks_iff {width height cs : ℕ} {e : ChunkEntry} :
    e ∈ (calculate_chunk_grid width height cs).chunks ↔
      ∃ yi, yi < (height + cs - 1) / cs ∧ ∃ xi, xi < (width + cs - 1) / cs ∧
        e = mkChunkEntry width height cs xi yi := by
  simp only [calculate_chunk_grid, List.mem_flatMap, List.mem_map, List.mem_range]
  constructor
  · rintro ⟨yi, hyi, xi, hxi, rfl⟩
    exact ⟨yi, hyi, xi, hxi, rfl⟩
  · rintro ⟨yi, hyi, xi, hxi, rfl⟩
    exact ⟨yi, hyi, xi, hxi, rfl⟩

lemma contains_mkChunkEntry {width height cs xi yi px py : ℕ} :
    winContains (mkChunkEntry width height cs xi yi).window px py ↔
      (xi * cs ≤ px ∧ px < xi * cs + min cs (width - xi * cs) ∧
       yi * cs ≤ py ∧ py < yi * cs + min cs (height - yi * cs)) := Iff.rfl

lemma contains_determines {cs q r : ℕ} (_hcs : 0 < cs) (b : ℕ)
    (h1 : q * cs ≤ r) (h2 : r < q * cs + min cs b) : r / cs = q := by
  refine Nat.div_eq_of_lt_le h1 ?_
  have hm : min cs b ≤ cs := min_le_left _ _
  rw [Nat.succ_mul]
  omega

lemma pairwise_flatMap_range {f : ℕ → List ChunkEntry} {n : ℕ}
    (h1 : ∀ i, List.Pairwise entryLt (f i))
    (h2 : ∀ i j, i < j → ∀ e1 ∈ f i, ∀ e2 ∈ f j, entryLt e1 e2) :
    List.Pairwise entryLt ((List.range n).flatMap f) := by
  induction n with
  | zero => simp
  | succ m ih =>
      rw [List.range_succ, List.flatMap_append]
      refine List.pairwise_append.mpr ⟨ih, ?_, ?_⟩
      · simpa using h1 m
      · intro e1 he1 e2 he2
        rw [List.mem_flatMap] at he1
        obtain ⟨i, hi, hmem⟩ := he1
        rw [List.mem_range] at hi
        simp only [List.flatMap_cons, List.flatMap_nil, List.append_nil] at he2
        exact h2 i m hi e1 hmem e2 he2

/-- C1.  Grid coverage: for every positive `(width, height, chunk_size)`,
`calculate_chunk_grid` produces windows that exactly partition
`[0,width) x [0,height)`: every pixel is covered, no two distinct entries
overlap, each window is clipped by `min(chunk_size, width - x)` /
`min(chunk_size, height - y)` (never padded past the raster edge, never
empty), and the entries are emitted in strict row-major order. -/
theorem grid_partition_rowmajor (width height cs : ℕ)
    (_hw : 0 < width) (_hh : 0 < height) (hcs : 0 < cs) :
    (∀ px py, px < width → py < height →
      ∃ e ∈ (calculate_chunk_grid width height cs).chunks, winContains e.window px py) ∧
    (∀ e1 ∈ (calculate_chunk_grid width height cs).chunks,
      ∀ e2 ∈ (calculate_chunk_grid width height cs).chunks, e1 ≠ e2 →
        ∀ px py, winContains e1.window px py → ¬ winContains e2.window px py) ∧
    (∀ e ∈ (calculate_chunk_grid width height cs).chunks,
      e.window.width = min cs (width - e.window.col_off) ∧
      e.window.height = min cs (height - e.window.row_off) ∧
      0 < e.window.width ∧ 0 < e.window.height ∧
      e.window.col_off + e.window.width ≤ width ∧
      e.window.row_off + e.window.height ≤ height) ∧
    List.Pairwise entryLt (calculate_chunk_grid width height cs).chunks := by
  refine ⟨?_, ?_, ?_, ?_⟩
  · -- coverage
    intro px py hpx hpy
    refine ⟨mkChunkEntry width height cs (px / cs) (py / cs), ?_, ?_⟩
    · refine mem_chunks_iff.mpr ⟨py / cs, ?_, px / cs, ?_, rfl⟩
      · exact (lt_ceil_iff hcs).mpr (lt_of_le_of_lt (Nat.div_mul_le_self py cs) hpy)
      · exact (lt_ceil_iff hcs).mpr (lt_of_le_of_lt (Nat.div_mul_le_self px cs) hpx)
    · rw [contains_mkChunkEntry]
      have hx1 : px / cs * cs ≤ px := Nat.div_mul_le_self px cs
      have hx2 : px / cs * cs + px % cs = px := by rw [Nat.mul_comm]; exact Nat.div_add_mod px cs
      have hx3 : px % cs < cs := Nat.mod_lt px hcs
      have hy1 : py / cs * cs ≤ py := Nat.div_mul_le_self py cs
      have hy2 : py / cs * cs + py % cs = py := by rw [Nat.mul_comm]; exact Nat.div_add_mod py cs
      have hy3 : py % cs < cs := Nat.mod_lt py hcs
      omega
  · -- no overlaps
    intro e1 he1 e2 he2 hne px py hc1 hc2
    obtain ⟨yi1, _, xi1, _, rfl⟩ := mem_chunks_iff.mp he1
    obtain ⟨yi2, _, xi2, _, rfl⟩ := mem_chunks_iff.mp he2
    rw [contains_mkChunkEntry] at hc1 hc2
    have ex1 : px / cs = xi1 := contains_determines hcs _ hc1.1 hc1.2.1
    have ex2 : px / cs = xi2 := contains_determines hcs _ hc2.1 hc2.2.1
    have ey1 : py / cs = yi1 := contains_determines hcs _ hc1.2.2.1 hc1.2.2.2
    have ey2 : py / cs = yi2 := contains_determines hcs _ hc2.2.2.1 hc2.2.2.2
    have hx : xi1 = xi2 := ex1.symm.trans ex2
    have hy : yi1 = yi2 := ey1.symm.trans ey2
    exact hne (by rw [hx, hy])
  · -- clipping, positivity, in-bounds
    intro e he
    obtain ⟨yi, hyi, xi, hxi, rfl⟩ := mem_chunks_iff.mp he
    have hxlt : xi * cs < width := (lt_ceil_iff hcs).mp hxi
    have hylt : yi * cs < height := (lt_ceil_iff hcs).mp hyi
    refine ⟨rfl, rfl, ?_, ?_, ?_, ?_⟩ <;>
      simp only [mkChunkEntry] <;> omega
  · -- strict row-major order
    refine pairwise_flatMap_range ?_ ?_
    · intro yi
      refine List.pairwise_map.mpr ?_
      refine (List.pairwise_lt_range _).imp ?_
      intro a b hab
      exact Or.inr ⟨rfl, (Nat.mul_lt_mul_right hcs).mpr hab⟩
    · intro i j hij e1 he1 e2 he2
      rw [List.mem_map] at he1 he2
      obtain ⟨a, _, rfl⟩ := he1
      obtain ⟨b, _, rfl⟩ := he2
      exact Or.inl ((Nat.mul_lt_mul_right hcs).mpr hij)

/-- Concrete instantiation of the grid partition theorem at a 5x5 raster
with chunk size 2. -/
theorem grid_partition_rowmajor_witness :
    (∀ px py, px < 5 → py < 5 →
      ∃ e ∈ (calculate_chunk_grid 5 5 2).chunks, winContains e.window px py) ∧
    List.Pairwise entryLt (calculate_chunk_grid 5 5 2).chunks :=
  ⟨(grid_partition_rowmajor 5 5 2 (by decide) (by decide) (by decide)).1,
   (grid_partition_rowmajor 5 5 2 (by decide) (by decide) (by decide)).2.2.2⟩

/-- C9.  Exact coverage scenario: `width = height = 1000`, `chunk_size = 256`
gives a 4x4 grid of 16 windows, the last row and column clipped to 232
pixels, and the window areas sum to 1,000,000. -/
theorem exact_coverage_scenario_1000_256 :
    (calculate_chunk_grid 1000 1000 256).chunks_x = 4 ∧
    (calculate_chunk_grid 1000 1000 256).chunks_y = 4 ∧
    (calculate_chunk_grid 1000 1000 256).total_chunks = 16 ∧
    (calculate_chunk_grid 1000 1000 256).chunks.length = 16 ∧
    (∀ e ∈ (calculate_chunk_grid 1000 1000 256).chunks,
      (e.window.width = if e.window.col_off = 768 then 232 else 256) ∧
      (e.window.height = if e.window.row_off = 768 then 232 else 256)) ∧
    ((calculate_chunk_grid 1000 1000 256).chunks.map
      (fun e => e.window.width * e.window.height)).sum = 1000000 := by
  decide


lemma mem_rangeStep {stop step x : ℕ} :
    x ∈ rangeStep stop step ↔
      ∃ i, i < (stop + step - 1) / step ∧ x = i * step := by
  simp only [rangeStep, List.mem_map, List.mem_range]
  constructor
  · rintro ⟨i, hi, rfl⟩
    exact ⟨i, hi, rfl⟩
  · rintro ⟨i, hi, rfl⟩
    exact ⟨i, hi, rfl⟩

lemma mem_outerPositions {width height cs : ℕ} {p : ℕ × ℕ} :
    p ∈ outerPositions width height cs ↔
      p.1 ∈ rangeStep width cs ∧ p.2 ∈ rangeStep height cs := by
  simp only [outerPositions, List.mem_flatMap, List.mem_map]
  constructor
  · rintro ⟨cy, hcy, cx, hcx, rfl⟩
    exact ⟨hcx, hcy⟩
  · rintro ⟨hcx, hcy⟩
    exact ⟨p.2, hcy, p.1, hcx, by rfl⟩

lemma mem_subWindows {chunk_x chunk_y win_w win_h : ℕ} {s : Window}
    (hs : s ∈ subWindows chunk_x chunk_y win_w win_h) :
    ∃ sub_x ∈ rangeStep win_w 128, ∃ sub_y ∈ rangeStep win_h 128,
      s = ⟨chunk_x + sub_x, chunk_y + sub_y,
           min 128 (win_w - sub_x), min 128 (win_h - sub_y)⟩ := by
  simp only [subWindows, List.mem_flatMap, List.mem_map] at hs
  obtain ⟨sub_y, hy, sub_x, hx, rfl⟩ := hs
  exact ⟨sub_x, hx, sub_y, hy, rfl⟩

/-- C2.  Alignment invariant: when the outer chunk size is a multiple of
128, every sub-chunk window generated for any outer window of the grid has
an origin congruent to `(0,0)` modulo 128 relative to the raster origin;
every configuration selector produces a chunk size that is a multiple of
128; and the outer window `(512, 768, 256, 256)` subdivides at 128 into
exactly the four 128x128 sub-windows at `(512,768)`, `(640,768)`,
`(512,896)`, `(640,896)`. -/
theorem subchunk_alignment (chunk_size width height : ℕ)
    (h : chunk_size % 128 = 0) :
    (∀ w ∈ outerWindows width height chunk_size,
      ∀ s ∈ subWindows w.col_off w.row_off w.width w.height,
        s.col_off % 128 = 0 ∧ s.row_off % 128 = 0) ∧
    (∀ fs ml : ℚ, (get_chunk_config fs ml).default_chunk_size % 128 = 0) ∧
    (∀ ml : ℚ, (get_adaptive_chunk_config ml).default_chunk_size % 128 = 0) ∧
    get_memory_safe_config.default_chunk_size % 128 = 0 ∧
    subWindows 512 768 256 256 =
      [⟨512, 768, 128, 128⟩, ⟨640, 768, 128, 128⟩,
       ⟨512, 896, 128, 128⟩, ⟨640, 896, 128, 128⟩] := by
  obtain ⟨c, rfl⟩ := Nat.dvd_of_mod_eq_zero h
  refine ⟨?_, ?_, ?_, by decide, by decide⟩
  · intro w hw s hs
    obtain ⟨p, hp, rfl⟩ := List.mem_map.mp hw
    obtain ⟨hpx, hpy⟩ := mem_outerPositions.mp hp
    obtain ⟨i, _, hxi⟩ := mem_rangeStep.mp hpx
    obtain ⟨j, _, hyj⟩ := mem_rangeStep.mp hpy
    obtain ⟨sub_x, hsx, sub_y, hsy, rfl⟩ := mem_subWindows hs
    obtain ⟨a, _, hsa⟩ := mem_rangeStep.mp hsx
    obtain ⟨b, _, hsb⟩ := mem_rangeStep.mp hsy
    constructor
    · simp only [outerWindow]
      rw [hxi, hsa]
      have hx : i * (128 * c) + a * 128 = 128 * (i * c + a) := by ring
      rw [hx, Nat.mul_mod_right]
    · simp only [outerWindow]
      rw [hyj, hsb]
      have hy : j * (128 * c) + b * 128 = 128 * (j * c + b) := by ring
      rw [hy, Nat.mul_mod_right]
  · intro fs ml
    unfold get_chunk_config get_fixed_chunk_config
    split_ifs <;> norm_num
  · intro ml
    norm_num [get_adaptive_chunk_config]

/-- Concrete instantiation of the alignment theorem at chunk size 256. -/
theorem subchunk_alignment_witness :
    subWindows 512 768 256 256 =
      [⟨512, 768, 128, 128⟩, ⟨640, 768, 128, 128⟩,
       ⟨512, 896, 128, 128⟩, ⟨640, 896, 128, 128⟩] :=
  (subchunk_alignment 256 1000 1000 (by decide)).2.2.2.2

lemma chunkAttempt_absorb (trigger : String → String → Bool) (env : Env)
    (srcName : String) (sn dn : Option FVal) (band : ℕ) (w : Window) (st : St)
    (h : st.err.isSome = true) :
    chunkAttempt trigger env srcName sn dn band w st = st := by
  simp [chunkAttempt, h]

lemma chunkAttempt_cases (trigger : String → String → Bool) (env : Env)
    (srcName : String) (sn dn : Option FVal) (band : ℕ) (w : Window) (st : St)
    (h : st.err = none) :
    (env.rp st.rpIdx = none ∧
      chunkAttempt trigger env srcName sn dn band w st =
        { st with rpIdx := st.rpIdx + 1
                  events := st.events ++
                    [Event.alloc w w.height w.width (fillValue dn),
                     Event.rpCall w Resampling.nearest sn dn,
                     Event.nanFix w dn, Event.write band w] }) ∨
    (∃ msg, env.rp st.rpIdx = some msg ∧ trigger msg srcName = true ∧
      chunkAttempt trigger env srcName sn dn band w st =
        { st with rpIdx := st.rpIdx + 1
                  events := st.events ++
                    [Event.alloc w w.height w.width (fillValue dn),
                     Event.rpCall w Resampling.nearest sn dn]
                  err := some streamingChunkErrorMsg }) ∨
    (∃ msg, env.rp st.rpIdx = some msg ∧ trigger msg srcName = false ∧
      chunkAttempt trigger env srcName sn dn band w st =
        { st with rpIdx := st.rpIdx + 1
                  events := st.events ++
                    [Event.alloc w w.height w.width (fillValue dn),
                     Event.rpCall w Resampling.nearest sn dn,
                     Event.fillNodata w (fillValue dn),
                     Event.nanFix w dn, Event.write band w] }) := by
  cases hrp : env.rp st.rpIdx with
  | none =>
      exact Or.inl ⟨rfl, by simp [chunkAttempt, h, hrp, List.append_assoc]⟩
  | some msg =>
      by_cases ht : trigger msg srcName
      · exact Or.inr (Or.inl ⟨msg, rfl, ht,
          by simp [chunkAttempt, h, hrp, ht, List.append_assoc]⟩)
      · refine Or.inr (Or.inr ⟨msg, rfl, by simpa using ht, ?_⟩)
        simp [chunkAttempt, h, hrp, ht, List.append_assoc]

lemma chunkAttempt_fail (trigger : String → String → Bool) (env : Env)
    (srcName : String) (sn dn : Option FVal) (band : ℕ) (w : Window) (st : St)
    (msg : String) (h : st.err = none) (hrp : env.rp st.rpIdx = some msg) :
    (trigger msg srcName = true ∧
      chunkAttempt trigger env srcName sn dn band w st =
        { st with rpIdx := st.rpIdx + 1
                  events := st.events ++
                    [Event.alloc w w.height w.width (fillValue dn),
                     Event.rpCall w Resampling.nearest sn dn]
                  err := some streamingChunkErrorMsg }) ∨
    (trigger msg srcName = false ∧
      chunkAttempt trigger env srcName sn dn band w st =
        { st with rpIdx := st.rpIdx + 1
                  events := st.events ++
                    [Event.alloc w w.height w.width (fillValue dn),
                     Event.rpCall w Resampling.nearest sn dn,
                     Event.fillNodata w (fillValue dn),
                     Event.nanFix w dn, Event.write band w] }) := by
  rcases chunkAttempt_cases trigger env srcName sn dn band w st h with
    ⟨h0, _⟩ | ⟨m, hm, ht, he⟩ | ⟨m, hm, ht, he⟩
  · rw [h0] at hrp
    cases hrp
  · rw [hm] at hrp
    injection hrp with hmm
    subst hmm
    exact Or.inl ⟨ht, he⟩
  · rw [hm] at hrp
    injection hrp with hmm
    subst hmm
    exact Or.inr ⟨ht, he⟩

/-- C3 (amended).  Streaming-error classification on each per-chunk
failure: the direct full-chunk path raises the streaming signal iff the
lowered failure text contains "curl", "vsi" or "chunk and warp" AND the
source name contains "/vsis3/" (`directStreamingTrigger`); the sub-chunk
path raises it iff the lowered failure text contains "chunk and warp" AND
the source name contains "/vsis3/" (`subStreamingTrigger`); in every other
failure case the path fills the buffer with the destination sentinel
(or 0), runs the NaN fix, writes the window and continues without
raising, and when it does raise, nothing is written for that window. -/
theorem streaming_error_classification
    (env : Env) (srcName : String) (src_nodata dst_nodata : Option FVal)
    (band : ℕ) (w : Window) (st : St) (msg : String)
    (h : st.err = none) (hrp : env.rp st.rpIdx = some msg) :
    ((processDirectChunk env srcName src_nodata dst_nodata band w st).err =
        some streamingChunkErrorMsg ↔ directStreamingTrigger msg srcName = true) ∧
    ((processSubChunk env srcName src_nodata dst_nodata band w st).err =
        some streamingChunkErrorMsg ↔ subStreamingTrigger msg srcName = true) ∧
    (directStreamingTrigger msg srcName = false →
      (processDirectChunk env srcName src_nodata dst_nodata band w st).err = none ∧
      (processDirectChunk env srcName src_nodata dst_nodata band w st).events =
        st.events ++
          [Event.alloc w w.height w.width (fillValue dst_nodata),
           Event.rpCall w Resampling.nearest src_nodata dst_nodata,
           Event.fillNodata w (fillValue dst_nodata),
           Event.nanFix w dst_nodata,
           Event.write band w]) ∧
    (subStreamingTrigger msg srcName = false →
      (processSubChunk env srcName src_nodata dst_nodata band w st).err = none ∧
      (processSubChunk env srcName src_nodata dst_nodata band w st).events =
        st.events ++
          [Event.alloc w w.height w.width (fillValue dst_nodata),
           Event.rpCall w Resampling.nearest src_nodata dst_nodata,
           Event.fillNodata w (fillValue dst_nodata),
           Event.nanFix w dst_nodata,
           Event.write band w]) ∧
    (directStreamingTrigger msg srcName = true →
      (processDirectChunk env srcName src_nodata dst_nodata band w st).events =
        st.events ++
          [Event.alloc w w.height w.width (fillValue dst_nodata),
           Event.rpCall w Resampling.nearest src_nodata dst_nodata]) ∧
    (subStreamingTrigger msg srcName = true →
      (processSubChunk env srcName src_nodata dst_nodata band w st).events =
        st.events ++
          [Event.alloc w w.height w.width (fillValue dst_nodata),
           Event.rpCall w Resampling.nearest src_nodata dst_nodata]) := by
  have hd := chunkAttempt_fail directStreamingTrigger env srcName src_nodata
    dst_nodata band w st msg h hrp
  have hs := chunkAttempt_fail subStreamingTrigger env srcName src_nodata
    dst_nodata band w st msg h hrp
  refine ⟨?_, ?_, ?_, ?_, ?_, ?_⟩
  · rcases hd with ⟨ht, he⟩ | ⟨ht, he⟩ <;>
      simp [processDirectChunk, he, ht, h]
  · rcases hs with ⟨ht, he⟩ | ⟨ht, he⟩ <;>
      simp [processSubChunk, he, ht, h]
  · intro hf
    rcases hd with ⟨ht, he⟩ | ⟨ht, he⟩
    · rw [ht] at hf; cases hf
    · exact ⟨by simp [processDirectChunk, he, h], by simp [processDirectChunk, he]⟩
  · intro hf
    rcases hs with ⟨ht, he⟩ | ⟨ht, he⟩
    · rw [ht] at hf; cases hf
    · exact ⟨by simp [processSubChunk, he, h], by simp [processSubChunk, he]⟩
  · intro ht'
    rcases hd with ⟨ht, he⟩ | ⟨ht, he⟩
    · simp [processDirectChunk, he]
    · rw [ht] at ht'; cases ht'
  · intro ht'
    rcases hs with ⟨ht, he⟩ | ⟨ht, he⟩
    · simp [processSubChunk, he]
    · rw [ht] at ht'; cases ht'

/-- Concrete instantiation of the classification theorem: a "curl timeout"
failure under a `/vsis3/` source on the direct path. -/
theorem streaming_error_classification_witness :
    (processDirectChunk envCurlFail "/vsis3/b" none none 1 ⟨0, 0, 5, 5⟩
        St.init).err = some streamingChunkErrorMsg ↔
      directStreamingTrigger "curl timeout" "/vsis3/b" = true :=
  (streaming_error_classification envCurlFail "/vsis3/b" none none 1
    ⟨0, 0, 5, 5⟩ St.init "curl timeout" rfl rfl).1

/-- Counterexample to C3 as stated: a "curl timeout" failure on a
`/vsis3/` source matches the claimed three-substring rule, yet the
sub-chunk path does not raise — it recovers and writes — while the direct
path raises; the classification is not identical on the two paths. -/
theorem subchunk_streaming_rule_differs :
    (processSubChunk envCurlFail "/vsis3/bucket/file.tif" none none 1
        ⟨0, 0, 128, 128⟩ St.init).err = none ∧
    Event.write 1 ⟨0, 0, 128, 128⟩ ∈
      (processSubChunk envCurlFail "/vsis3/bucket/file.tif" none none 1
        ⟨0, 0, 128, 128⟩ St.init).events ∧
    (processDirectChunk envCurlFail "/vsis3/bucket/file.tif" none none 1
        ⟨0, 0, 128, 128⟩ St.init).err = some streamingChunkErrorMsg ∧
    strHasSub "curl" (lowerStr "curl timeout") = true ∧
    strHasSub "/vsis3/" "/vsis3/bucket/file.tif" = true := by
  decide

lemma chunkAttempt_memIdx (trigger : String → String → Bool) (env : Env)
    (srcName : String) (sn dn : Option FVal) (band : ℕ) (w : Window) (st : St) :
    (chunkAttempt trigger env srcName sn dn band w st).memIdx = st.memIdx := by
  by_cases h : st.err.isSome
  · rw [chunkAttempt_absorb trigger env srcName sn dn band w st h]
  · have h' : st.err = none := Option.not_isSome_iff_eq_none.mp h
    rcases chunkAttempt_cases trigger env srcName sn dn band w st h' with
      ⟨_, he⟩ | ⟨_, _, _, he⟩ | ⟨_, _, _, he⟩ <;> rw [he]

lemma chunkAttempt_events_append (trigger : String → String → Bool) (env : Env)
    (srcName : String) (sn dn : Option FVal) (band : ℕ) (w : Window) (st : St) :
    ∃ new, (chunkAttempt trigger env srcName sn dn band w st).events =
      st.events ++ new := by
  by_cases h : st.err.isSome
  · exact ⟨[], by rw [chunkAttempt_absorb trigger env srcName sn dn band w st h,
      List.append_nil]⟩
  · have h' : st.err = none := Option.not_isSome_iff_eq_none.mp h
    rcases chunkAttempt_cases trigger env srcName sn dn band w st h' with
      ⟨_, he⟩ | ⟨_, _, _, he⟩ | ⟨_, _, _, he⟩ <;> exact ⟨_, by rw [he]⟩

lemma subfold_absorb (env : Env) (srcName : String) (sn dn : Option FVal)
    (band : ℕ) (ws : List Window) (st : St) (h : st.err.isSome = true) :
    ws.foldl (fun s w => processSubChunk env srcName sn dn band w s) st = st := by
  induction ws with
  | nil => rfl
  | cons w t ih =>
      simp only [List.foldl_cons, processSubChunk,
        chunkAttempt_absorb subStreamingTrigger env srcName sn dn band w st h]
      exact ih

lemma subfold_memIdx (env : Env) (srcName : String) (sn dn : Option FVal)
    (band : ℕ) (ws : List Window) :
    ∀ st : St,
      (ws.foldl (fun s w => processSubChunk env srcName sn dn band w s) st).memIdx
        = st.memIdx := by
  induction ws with
  | nil => intro st; rfl
  | cons w t ih =>
      intro st
      simp only [List.foldl_cons]
      rw [ih]
      exact chunkAttempt_memIdx subStreamingTrigger env srcName sn dn band w st

lemma subfold_events_append (env : Env) (srcName : String) (sn dn : Option FVal)
    (band : ℕ) (ws : List Window) :
    ∀ st : St, ∃ new,
      (ws.foldl (fun s w => processSubChunk env srcName sn dn band w s) st).events
        = st.events ++ new := by
  induction ws with
  | nil => intro st; exact ⟨[], by simp⟩
  | cons w t ih =>
      intro st
      obtain ⟨n1, h1⟩ := chunkAttempt_events_append subStreamingTrigger env
        srcName sn dn band w st
      obtain ⟨n2, h2⟩ := ih (processSubChunk env srcName sn dn band w st)
      refine ⟨n1 ++ n2, ?_⟩
      simp only [List.foldl_cons]
      rw [h2, processSubChunk, h1, List.append_assoc]

lemma subfold_allocWindows (env : Env) (srcName : String) (sn dn : Option FVal)
    (band : ℕ) (ws : List Window) :
    ∀ st : St, st.err = none →
      (ws.foldl (fun s w => processSubChunk env srcName sn dn band w s) st).err
          = none →
      allocWindows
        ((ws.foldl (fun s w => processSubChunk env srcName sn dn band w s)
            st).events.drop st.events.length) = ws := by
  induction ws with
  | nil =>
      intro st _ _
      simp [List.drop_length, allocWindows]
  | cons w t ih =>
      intro st h hfin
      simp only [List.foldl_cons] at hfin ⊢
      rcases chunkAttempt_cases subStreamingTrigger env srcName sn dn band w st h with
        ⟨_, he⟩ | ⟨msg, _, _, he⟩ | ⟨msg, _, _, he⟩
      · -- success: one alloc for w, then recurse
        have herr : (chunkAttempt subStreamingTrigger env srcName sn dn band w st).err
            = none := by rw [he]; exact h
        obtain ⟨n2, h2⟩ := subfold_events_append env srcName sn dn band t
          (processSubChunk env srcName sn dn band w st)
        have hrec := ih (processSubChunk env srcName sn dn band w st)
          (by simpa [processSubChunk] using herr) hfin
        rw [h2] at hrec ⊢
        rw [List.drop_left] at hrec
        simp only [processSubChunk, he] at h2 hrec ⊢
        rw [List.append_assoc, List.drop_left]
        simp [allocWindows, List.filterMap_append] at hrec ⊢
        exact hrec
      · -- streaming raise: the remaining fold is absorbed, contradiction
        exfalso
        have habs := subfold_absorb env srcName sn dn band t
          (processSubChunk env srcName sn dn band w st)
          (by simp [processSubChunk, he])
        rw [habs] at hfin
        simp [processSubChunk, he] at hfin
      · -- recovery: one alloc for w, then recurse
        have herr : (chunkAttempt subStreamingTrigger env srcName sn dn band w st).err
            = none := by rw [he]; exact h
        obtain ⟨n2, h2⟩ := subfold_events_append env srcName sn dn band t
          (processSubChunk env srcName sn dn band w st)
        have hrec := ih (processSubChunk env srcName sn dn band w st)
          (by simpa [processSubChunk] using herr) hfin
        rw [h2] at hrec ⊢
        rw [List.drop_left] at hrec
        simp only [processSubChunk, he] at h2 hrec ⊢
        rw [List.append_assoc, List.drop_left]
        simp [allocWindows, List.filterMap_append] at hrec ⊢
        exact hrec


lemma processChunk_eq (env : Env) (srcName : String)
    (src_nodata dst_nodata : Option FVal) (memory_limit_mb : ℚ)
    (band width height chunk_size : ℕ) (pos : ℕ × ℕ) (st : St)
    (h : st.err = none) :
    processChunk env srcName src_nodata dst_nodata memory_limit_mb band width
        height chunk_size pos st =
      if decide (memory_limit_mb < env.mem st.memIdx ∧
          128 < min chunk_size (width - pos.1) ∧
          128 < min chunk_size (height - pos.2)) = true
      then (subWindows pos.1 pos.2 (min chunk_size (width - pos.1))
          (min chunk_size (height - pos.2))).foldl
          (fun s w => processSubChunk env srcName src_nodata dst_nodata band w s)
          { st with memIdx := st.memIdx + 1,
                    events := st.events ++
                      [Event.memSample (env.mem st.memIdx),
                       Event.subdivideDecision
                         (outerWindow width height chunk_size pos.1 pos.2)
                         (decide (memory_limit_mb < env.mem st.memIdx ∧
                           128 < min chunk_size (width - pos.1) ∧
                           128 < min chunk_size (height - pos.2)))] }
      else processDirectChunk env srcName src_nodata dst_nodata band
          (outerWindow width height chunk_size pos.1 pos.2)
          { st with memIdx := st.memIdx + 1,
                    events := st.events ++
                      [Event.memSample (env.mem st.memIdx),
                       Event.subdivideDecision
                         (outerWindow width height chunk_size pos.1 pos.2)
                         (decide (memory_limit_mb < env.mem st.memIdx ∧
                           128 < min chunk_size (width - pos.1) ∧
                           128 < min chunk_size (height - pos.2)))] } := by
  obtain ⟨mi, ri, ev, er⟩ := st
  change er = none at h
  subst h
  rfl

/-- C6.  Memory-subdivision decision: each outer chunk consumes exactly one
fresh memory sample (the engine's memory cursor advances by one per chunk,
and the decision is made against the sample at the current cursor, so
nothing is cached across chunks); the sub-chunk path is entered iff that
sample exceeds `memory_limit_mb` and both clipped window dimensions exceed
128; when not entered the outer window is allocated (hence reprojected and
written) as a single unit, and when entered the allocations are exactly
the 128-aligned sub-windows of the outer window. -/
theorem memory_subdivision_decision
    (env : Env) (srcName : String) (src_nodata dst_nodata : Option FVal)
    (memory_limit_mb : ℚ) (band width height chunk_size : ℕ)
    (pos : ℕ × ℕ) (st : St) (h : st.err = none) :
    (processChunk env srcName src_nodata dst_nodata memory_limit_mb band width
        height chunk_size pos st).memIdx = st.memIdx + 1 ∧
    (∃ rest,
      (processChunk env srcName src_nodata dst_nodata memory_limit_mb band width
          height chunk_size pos st).events =
        st.events ++
          Event.memSample (env.mem st.memIdx) ::
          Event.subdivideDecision
            (outerWindow width height chunk_size pos.1 pos.2)
            (decide (memory_limit_mb < env.mem st.memIdx ∧
              128 < min chunk_size (width - pos.1) ∧
              128 < min chunk_size (height - pos.2))) :: rest) ∧
    (decide (memory_limit_mb < env.mem st.memIdx ∧
        128 < min chunk_size (width - pos.1) ∧
        128 < min chunk_size (height - pos.2)) = false →
      allocWindows
        ((processChunk env srcName src_nodata dst_nodata memory_limit_mb band
            width height chunk_size pos st).events.drop (st.events.length + 2)) =
        [outerWindow width height chunk_size pos.1 pos.2]) ∧
    (decide (memory_limit_mb < env.mem st.memIdx ∧
        128 < min chunk_size (width - pos.1) ∧
        128 < min chunk_size (height - pos.2)) = true →
      (processChunk env srcName src_nodata dst_nodata memory_limit_mb band
          width height chunk_size pos st).err = none →
      allocWindows
        ((processChunk env srcName src_nodata dst_nodata memory_limit_mb band
            width height chunk_size pos st).events.drop (st.events.length + 2)) =
        subWindows pos.1 pos.2 (min chunk_size (width - pos.1))
          (min chunk_size (height - pos.2))) := by
  rw [processChunk_eq env srcName src_nodata dst_nodata memory_limit_mb band
    width height chunk_size pos st h]
  cases hdec : decide (memory_limit_mb < env.mem st.memIdx ∧
      128 < min chunk_size (width - pos.1) ∧
      128 < min chunk_size (height - pos.2)) with
  | false =>
      rw [if_neg (by simp)]
      refine ⟨?_, ?_, ?_, ?_⟩
      · rw [processDirectChunk, chunkAttempt_memIdx]
      · obtain ⟨new, hnew⟩ := chunkAttempt_events_append directStreamingTrigger
          env srcName src_nodata dst_nodata band
          (outerWindow width height chunk_size pos.1 pos.2)
          { st with memIdx := st.memIdx + 1,
                    events := st.events ++
                      [Event.memSample (env.mem st.memIdx),
                       Event.subdivideDecision
                         (outerWindow width height chunk_size pos.1 pos.2)
                         false] }
        refine ⟨new, ?_⟩
        rw [processDirectChunk, hnew]
        simp
      · intro _
        rcases chunkAttempt_cases directStreamingTrigger env srcName src_nodata
          dst_nodata band (outerWindow width height chunk_size pos.1 pos.2)
          { st with memIdx := st.memIdx + 1,
                    events := st.events ++
                      [Event.memSample (env.mem st.memIdx),
                       Event.subdivideDecision
                         (outerWindow width height chunk_size pos.1 pos.2)
                         false] }
          h with ⟨_, he⟩ | ⟨msg, _, _, he⟩ | ⟨msg, _, _, he⟩ <;>
        · rw [processDirectChunk, he]
          have hdrop : st.events.length + 2 =
            (st.events ++ [Event.memSample (env.mem st.memIdx),
              Event.subdivideDecision
                (outerWindow width height chunk_size pos.1 pos.2) false]).length := by
            simp
          simp only [hdrop]
          simp only [List.append_assoc, List.drop_left]
          simp [allocWindows]
      · intro htrue
        cases htrue
  | true =>
      rw [if_pos rfl]
      refine ⟨?_, ?_, ?_, ?_⟩
      · rw [subfold_memIdx]
      · obtain ⟨new, hnew⟩ := subfold_events_append env srcName src_nodata
          dst_nodata band (subWindows pos.1 pos.2 (min chunk_size (width - pos.1))
            (min chunk_size (height - pos.2)))
          { st with memIdx := st.memIdx + 1,
                    events := st.events ++
                      [Event.memSample (env.mem st.memIdx),
                       Event.subdivideDecision
                         (outerWindow width height chunk_size pos.1 pos.2)
                         true] }
        refine ⟨new, ?_⟩
        rw [hnew]
        simp
      · intro hfalse
        cases hfalse
      · intro _ herrnone
        have halloc := subfold_allocWindows env srcName src_nodata dst_nodata
          band (subWindows pos.1 pos.2 (min chunk_size (width - pos.1))
            (min chunk_size (height - pos.2)))
          { st with memIdx := st.memIdx + 1,
                    events := st.events ++
                      [Event.memSample (env.mem st.memIdx),
                       Event.subdivideDecision
                         (outerWindow width height chunk_size pos.1 pos.2)
                         true] }
          h herrnone
        simpa using halloc

/-- Concrete instantiation of the subdivision decision theorem. -/
theorem memory_subdivision_decision_witness :
    (processChunk envOkAll "f.tif" none none 100 1 300 300 256 (0, 0)
        St.init).memIdx = St.init.memIdx + 1 :=
  (memory_subdivision_decision envOkAll "f.tif" none none 100 1 300 300 256
    (0, 0) St.init rfl).1

lemma foldl_events_inv {β : Type} (P : Event → Prop) (f : St → β → St)
    (hf : ∀ s b, ∀ e ∈ (f s b).events, e ∈ s.events ∨ P e) :
    ∀ (l : List β) (s : St), (∀ e ∈ s.events, P e) →
      ∀ e ∈ (l.foldl f s).events, P e := by
  intro l
  induction l with
  | nil => intro s hs; exact hs
  | cons b t ih =>
      intro s hs
      simp only [List.foldl_cons]
      refine ih (f s b) ?_
      intro e he
      rcases hf s b e he with h1 | h2
      · exact hs e h1
      · exact h2

lemma chunkAttempt_events_subset (trigger : String → String → Bool) (env : Env)
    (srcName : String) (sn dn : Option FVal) (band : ℕ) (w : Window) (st : St) :
    ∀ e ∈ (chunkAttempt trigger env srcName sn dn band w st).events,
      e ∈ st.events ∨ eventNodataOk sn dn e := by
  by_cases h : st.err.isSome
  · rw [chunkAttempt_absorb trigger env srcName sn dn band w st h]
    exact fun e he => Or.inl he
  · have h' : st.err = none := Option.not_isSome_iff_eq_none.mp h
    rcases chunkAttempt_cases trigger env srcName sn dn band w st h' with
      ⟨_, he⟩ | ⟨m, _, _, he⟩ | ⟨m, _, _, he⟩ <;>
    · rw [he]
      intro e hee
      rcases List.mem_append.mp hee with hl | hr
      · exact Or.inl hl
      · refine Or.inr ?_
        fin_cases hr <;> simp [eventNodataOk]

lemma processChunk_absorb (env : Env) (srcName : String)
    (sn dn : Option FVal) (lim : ℚ) (band width height cs : ℕ)
    (pos : ℕ × ℕ) (st : St) (h : st.err.isSome = true) :
    processChunk env srcName sn dn lim band width height cs pos st = st := by
  simp [processChunk, h]

lemma processChunk_events_subset (env : Env) (srcName : String)
    (sn dn : Option FVal) (lim : ℚ) (band width height cs : ℕ)
    (pos : ℕ × ℕ) (st : St) :
    ∀ e ∈ (processChunk env srcName sn dn lim band width height cs pos st).events,
      e ∈ st.events ∨ eventNodataOk sn dn e := by
  by_cases h : st.err.isSome
  · rw [processChunk_absorb env srcName sn dn lim band width height cs pos st h]
    exact fun e he => Or.inl he
  · have h' : st.err = none := Option.not_isSome_iff_eq_none.mp h
    rw [processChunk_eq env srcName sn dn lim band width height cs pos st h']
    set st1 : St :=
      { st with memIdx := st.memIdx + 1,
                events := st.events ++
                  [Event.memSample (env.mem st.memIdx),
                   Event.subdivideDecision
                     (outerWindow width height cs pos.1 pos.2)
                     (decide (lim < env.mem st.memIdx ∧
                       128 < min cs (width - pos.1) ∧
                       128 < min cs (height - pos.2)))] } with hst1
    have hst1mem : ∀ e ∈ st1.events, e ∈ st.events ∨ eventNodataOk sn dn e := by
      intro e he
      rw [hst1] at he
      rcases List.mem_append.mp he with hl | hr
      · exact Or.inl hl
      · refine Or.inr ?_
        fin_cases hr <;> simp [eventNodataOk]
    cases hdec : decide (lim < env.mem st.memIdx ∧
        128 < min cs (width - pos.1) ∧ 128 < min cs (height - pos.2)) with
    | false =>
        rw [if_neg (by simp)]
        intro e he
        rcases chunkAttempt_events_subset directStreamingTrigger env srcName
          sn dn band (outerWindow width height cs pos.1 pos.2) st1 e he with
          h1 | h2
        · exact hst1mem e h1
        · exact Or.inr h2
    | true =>
        rw [if_pos rfl]
        refine foldl_events_inv (fun e => e ∈ st.events ∨ eventNodataOk sn dn e)
          (fun s w => processSubChunk env srcName sn dn band w s) ?_ _ st1
          hst1mem
        intro s w e he
        rcases chunkAttempt_events_subset subStreamingTrigger env srcName sn dn
          band w s e he with h1 | h2
        · exact Or.inl h1
        · exact Or.inr (Or.inr h2)

lemma processBand_events_subset (env : Env) (srcName : String)
    (sn dn : Option FVal) (cfg : ChunkConfig)
    (width height cs band : ℕ) (st : St) :
    ∀ e ∈ (processBand env srcName sn dn cfg width height cs band st).events,
      e ∈ st.events ∨ eventNodataOk sn dn e := by
  have hfold : ∀ e ∈ ((outerPositions width height cs).foldl
      (fun s p => processChunk env srcName sn dn cfg.memory_limit_mb band
        width height cs p s) st).events,
      e ∈ st.events ∨ eventNodataOk sn dn e := by
    refine foldl_events_inv (fun e => e ∈ st.events ∨ eventNodataOk sn dn e)
      _ ?_ _ st (fun e he => Or.inl he)
    intro s p e he
    rcases processChunk_events_subset env srcName sn dn cfg.memory_limit_mb
      band width height cs p s e he with h1 | h2
    · exact Or.inl h1
    · exact Or.inr (Or.inr h2)
  unfold processBand
  by_cases h1 : ((outerPositions width height cs).foldl
      (fun s p => processChunk env srcName sn dn cfg.memory_limit_mb band
        width height cs p s) st).err.isSome
  · rw [if_pos h1]
    exact hfold
  · rw [if_neg h1]
    by_cases h2 : cfg.enable_memory_monitoring
    · rw [if_pos h2]
      intro e he
      simp only [List.mem_append] at he
      rcases he with he | he
      · exact hfold e he
      · refine Or.inr ?_
        fin_cases he
        simp [eventNodataOk]
    · rw [if_neg h2]
      exact hfold

lemma process_with_fixed_chunks_events (env : Env) (srcName : String)
    (src_count width height chunk_size : ℕ) (src_nodata : Option FVal)
    (cfg : ChunkConfig) (dst_nodata : Option FVal) :
    ∀ e ∈ (process_with_fixed_chunks env srcName src_count width height
        chunk_size src_nodata cfg dst_nodata).events,
      eventNodataOk src_nodata (resolveNodata src_nodata dst_nodata) e := by
  unfold process_with_fixed_chunks
  refine foldl_events_inv _ _ ?_ _ St.init (by intro e he; cases he)
  intro s b e he
  exact processBand_events_subset env srcName src_nodata
    (resolveNodata src_nodata dst_nodata) cfg width height chunk_size (b + 1) s e he

lemma process_whole_file_events (env : Env) (src_count width height : ℕ)
    (src_nodata dst_nodata : Option FVal) :
    ∀ e ∈ (process_whole_file env src_count width height src_nodata
        dst_nodata).events,
      eventNodataOk src_nodata (resolveNodata src_nodata dst_nodata) e := by
  unfold process_whole_file
  refine foldl_events_inv _ _ ?_ _ St.init (by intro e he; cases he)
  intro s b e he
  by_cases h : s.err.isSome
  · simp only [h, if_pos rfl] at he
    exact Or.inl he
  · simp only [Option.not_isSome_iff_eq_none.mp h] at he
    rcases hrp : env.rp s.rpIdx with _ | msg <;> rw [hrp] at he <;>
      simp only [Option.isSome_none, Bool.false_eq_true, if_false,
        List.append_assoc, List.singleton_append, List.cons_append,
        List.nil_append] at he <;>
    · rcases List.mem_append.mp he with hl | hr
      · exact Or.inl hl
      · refine Or.inr ?_
        fin_cases hr <;> simp [eventNodataOk]

/-- C5.  No-data buffer initialization and independent sentinels: in every
run of the chunked engine, every buffer allocation has the window's shape
and is pre-filled with the resolved destination sentinel (or 0 when no
sentinel is declared), every reprojection call passes the source sentinel
as `src_nodata` and the resolved destination sentinel as `dst_nodata`
independently, every locally-recovered failure refills the buffer with the
destination sentinel, and the NaN fix receives the destination sentinel. -/
theorem nodata_buffer_init_and_sentinels
    (env : Env) (srcName : String) (src_count width height chunk_size : ℕ)
    (src_nodata : Option FVal) (cfg : ChunkConfig) (dst_nodata : Option FVal) :
    ∀ ev ∈ (process_with_fixed_chunks env srcName src_count width height
        chunk_size src_nodata cfg dst_nodata).events,
      (∀ w rows cols fill, ev = Event.alloc w rows cols fill →
        rows = w.height ∧ cols = w.width ∧
        fill = fillValue (resolveNodata src_nodata dst_nodata)) ∧
      (∀ w r s d, ev = Event.rpCall w r s d →
        s = src_nodata ∧ d = resolveNodata src_nodata dst_nodata) ∧
      (∀ w fill, ev = Event.fillNodata w fill →
        fill = fillValue (resolveNodata src_nodata dst_nodata)) ∧
      (∀ w nd, ev = Event.nanFix w nd →
        nd = resolveNodata src_nodata dst_nodata) := by
  intro ev hev
  have h2 := process_with_fixed_chunks_events env srcName src_count width
    height chunk_size src_nodata cfg dst_nodata ev hev
  refine ⟨?_, ?_, ?_, ?_⟩
  · rintro w rows cols fill rfl
    exact h2
  · rintro w r s d rfl
    exact ⟨h2.2.1, h2.2.2⟩
  · rintro w fill rfl
    exact h2
  · rintro w nd rfl
    exact h2

/-- Concrete instantiation: a run with source sentinel 5 and a distinct
destination sentinel 7 passes both independently on its reprojection
call. -/
theorem nodata_buffer_init_and_sentinels_witness :
    some (FVal.finite 5) = some (FVal.finite 5) ∧
    some (FVal.finite 7) =
      resolveNodata (some (FVal.finite 5)) (some (FVal.finite 7)) :=
  (nodata_buffer_init_and_sentinels envOkAll "f.tif" 1 1 1 1
    (some (FVal.finite 5)) get_memory_safe_config (some (FVal.finite 7))
    (Event.rpCall ⟨0, 0, 1, 1⟩ Resampling.nearest (some (FVal.finite 5))
      (some (FVal.finite 7)))
    (by decide)).2.1 ⟨0, 0, 1, 1⟩ Resampling.nearest (some (FVal.finite 5))
    (some (FVal.finite 7)) rfl

/-- C8.  Resampling policy: every reprojection call issued by the chunked
engine (both paths) and by the whole-file band processor uses
nearest-neighbor resampling; the only bilinear reprojection call sites in
`convert_to_cog` are on its non-chunked single-pass whole-file path. -/
theorem resampling_policy
    (env env2 : Env) (srcName : String)
    (src_count width height chunk_size : ℕ) (src_nodata dst_nodata : Option FVal)
    (cfg : ChunkConfig) (wf_count wf_width wf_height : ℕ)
    (wf_src wf_dst : Option FVal) :
    (∀ ev ∈ (process_with_fixed_chunks env srcName src_count width height
        chunk_size src_nodata cfg dst_nodata).events,
      ∀ w r s d, ev = Event.rpCall w r s d → r = Resampling.nearest) ∧
    (∀ ev ∈ (process_whole_file env2 wf_count wf_width wf_height wf_src
        wf_dst).events,
      ∀ w r s d, ev = Event.rpCall w r s d → r = Resampling.nearest) ∧
    (∀ site ∈ convert_to_cog_reproject_sites,
      site.resampling = Resampling.bilinear →
        site.chunked = false ∧ site.whole_file_single_pass = true) := by
  refine ⟨?_, ?_, by decide⟩
  · intro ev hev w r s d hrf
    subst hrf
    exact (process_with_fixed_chunks_events env srcName src_count width
      height chunk_size src_nodata cfg dst_nodata _ hev).1
  · intro ev hev w r s d hrf
    subst hrf
    exact (process_whole_file_events env2 wf_count wf_width wf_height wf_src
      wf_dst _ hev).1

/-- Concrete instantiation: the lone reprojection call of a 1x1 chunked run
uses nearest resampling. -/
theorem resampling_policy_witness :
    Resampling.nearest = Resampling.nearest :=
  (resampling_policy envOkAll envOkAll "f.tif" 1 1 1 1 none none
    get_memory_safe_config 1 1 1 none none).1
    (Event.rpCall ⟨0, 0, 1, 1⟩ Resampling.nearest none none)
    (by decide) ⟨0, 0, 1, 1⟩ Resampling.nearest none none rfl

lemma foldl_absorb {β : Type} (f : St → β → St)
    (hf : ∀ s b, s.err.isSome = true → f s b = s) :
    ∀ (l : List β) (s : St), s.err.isSome = true → l.foldl f s = s := by
  intro l
  induction l with
  | nil => intro s _; rfl
  | cons b t ih =>
      intro s hs
      simp only [List.foldl_cons, hf s b hs]
      exact ih s hs

lemma foldl_err_inv {β : Type} (Q : Option String → Prop) (f : St → β → St)
    (hf : ∀ s b, Q s.err → Q (f s b).err) :
    ∀ (l : List β) (s : St), Q s.err → Q ((l.foldl f s).err) := by
  intro l
  induction l with
  | nil => intro s hs; exact hs
  | cons b t ih =>
      intro s hs
      simp only [List.foldl_cons]
      exact ih (f s b) (hf s b hs)

/-- Every error an engine state can carry is the distinguished streaming
signal. -/
def errIsStreaming (o : Option String) : Prop :=
  ∀ e, o = some e → e = streamingChunkErrorMsg

lemma chunkAttempt_errIsStreaming (trigger : String → String → Bool) (env : Env)
    (srcName : String) (sn dn : Option FVal) (band : ℕ) (w : Window) (st : St)
    (h : errIsStreaming st.err) :
    errIsStreaming (chunkAttempt trigger env srcName sn dn band w st).err := by
  by_cases hs : st.err.isSome
  · rw [chunkAttempt_absorb trigger env srcName sn dn band w st hs]
    exact h
  · have h' : st.err = none := Option.not_isSome_iff_eq_none.mp hs
    rcases chunkAttempt_cases trigger env srcName sn dn band w st h' with
      ⟨_, he⟩ | ⟨m, _, _, he⟩ | ⟨m, _, _, he⟩ <;> rw [he]
    · exact h
    · intro e hee
      injection hee with hee
      exact hee.symm
    · exact h

lemma processChunk_errIsStreaming (env : Env) (srcName : String)
    (sn dn : Option FVal) (lim : ℚ) (band width height cs : ℕ)
    (pos : ℕ × ℕ) (st : St) (h : errIsStreaming st.err) :
    errIsStreaming
      (processChunk env srcName sn dn lim band width height cs pos st).err := by
  by_cases hs : st.err.isSome
  · rw [processChunk_absorb env srcName sn dn lim band width height cs pos st hs]
    exact h
  · have h' : st.err = none := Option.not_isSome_iff_eq_none.mp hs
    rw [processChunk_eq env srcName sn dn lim band width height cs pos st h']
    cases hdec : decide (lim < env.mem st.memIdx ∧
        128 < min cs (width - pos.1) ∧ 128 < min cs (height - pos.2)) with
    | false =>
        rw [if_neg (by simp)]
        exact chunkAttempt_errIsStreaming directStreamingTrigger env srcName
          sn dn band _ _ h
    | true =>
        rw [if_pos rfl]
        refine foldl_err_inv errIsStreaming _ ?_ _ _ h
        intro s w hq
        exact chunkAttempt_errIsStreaming subStreamingTrigger env srcName
          sn dn band w s hq

lemma processBand_errIsStreaming (env : Env) (srcName : String)
    (sn dn : Option FVal) (cfg : ChunkConfig)
    (width height cs band : ℕ) (st : St) (h : errIsStreaming st.err) :
    errIsStreaming
      (processBand env srcName sn dn cfg width height cs band st).err := by
  have hfold : errIsStreaming ((outerPositions width height cs).foldl
      (fun s p => processChunk env srcName sn dn cfg.memory_limit_mb band
        width height cs p s) st).err := by
    refine foldl_err_inv errIsStreaming _ ?_ _ _ h
    intro s p hq
    exact processChunk_errIsStreaming env srcName sn dn cfg.memory_limit_mb
      band width height cs p s hq
  unfold processBand
  by_cases h1 : ((outerPositions width height cs).foldl
      (fun s p => processChunk env srcName sn dn cfg.memory_limit_mb band
        width height cs p s) st).err.isSome
  · rw [if_pos h1]
    exact hfold
  · rw [if_neg h1]
    by_cases h2 : cfg.enable_memory_monitoring
    · rw [if_pos h2]
      exact hfold
    · rw [if_neg h2]
      exact hfold

lemma process_with_fixed_chunks_errIsStreaming (env : Env) (srcName : String)
    (src_count width height chunk_size : ℕ) (src_nodata : Option FVal)
    (cfg : ChunkConfig) (dst_nodata : Option FVal) :
    errIsStreaming (process_with_fixed_chunks env srcName src_count width
      height chunk_size src_nodata cfg dst_nodata).err := by
  unfold process_with_fixed_chunks
  refine foldl_err_inv errIsStreaming _ ?_ _ St.init (by intro e he; cases he)
  intro s b hq
  exact processBand_errIsStreaming env srcName src_nodata
    (resolveNodata src_nodata dst_nodata) cfg width height chunk_size (b + 1)
    s hq

lemma processBand_absorb (env : Env) (srcName : String) (sn dn : Option FVal)
    (cfg : ChunkConfig) (width height cs band : ℕ) (st : St)
    (h : st.err.isSome = true) :
    processBand env srcName sn dn cfg width height cs band st = st := by
  unfold processBand
  rw [foldl_absorb _ (fun s p hs => processChunk_absorb env srcName sn dn
    cfg.memory_limit_mb band width height cs p s hs) _ st h]
  rw [if_pos h]

/-- C4 (amended).  Streaming abort propagation and retry: the only error a
fixed-chunk run can terminate with is the distinguished streaming signal;
once an error is pending the band processor does nothing further (no later
chunk is written — the exception propagates with no intermediate handler);
`retry_with_download` catches exactly failures whose message carries
"STREAMING_CHUNK_ERROR", rerunning the callee once on a copy of the
configuration with `use_streaming` disabled, and re-raises every other
failure; `convert_to_cog`'s handler catches the streaming signal exactly
when the configuration has `use_streaming` enabled (it also fires on
"chunk and warp" messages — see the counterexample); and the retry
configuration is a copy: `use_streaming` becomes false and every other
field is preserved. -/
theorem streaming_abort_and_retry :
    (∀ (env : Env) (srcName : String)
        (src_count width height chunk_size : ℕ) (src_nodata : Option FVal)
        (cfg : ChunkConfig) (dst_nodata : Option FVal) (e : String),
      (process_with_fixed_chunks env srcName src_count width height chunk_size
        src_nodata cfg dst_nodata).err = some e →
        e = streamingChunkErrorMsg) ∧
    (∀ (env : Env) (srcName : String) (sn dn : Option FVal)
        (cfg : ChunkConfig) (width height cs band : ℕ) (st : St),
      st.err.isSome = true →
        processBand env srcName sn dn cfg width height cs band st = st) ∧
    (∀ (α : Type) (f : ChunkConfig → Except String α) (cfg : ChunkConfig),
      f cfg = Except.error streamingChunkErrorMsg →
        retry_with_download f cfg = f { cfg with use_streaming := false }) ∧
    (∀ (α : Type) (f : ChunkConfig → Except String α) (cfg : ChunkConfig)
        (e : String),
      f cfg = Except.error e → retry_trigger e = false →
        retry_with_download f cfg = Except.error e) ∧
    (∀ cfg : ChunkConfig,
      convert_retry_condition streamingChunkErrorMsg cfg = cfg.use_streaming) ∧
    (∀ cfg : ChunkConfig,
      (convert_retry_config cfg).use_streaming = false ∧
      (convert_retry_config cfg).default_chunk_size = cfg.default_chunk_size ∧
      (convert_retry_config cfg).memory_limit_mb = cfg.memory_limit_mb ∧
      (convert_retry_config cfg).show_progress = cfg.show_progress ∧
      (convert_retry_config cfg).enable_memory_monitoring =
        cfg.enable_memory_monitoring ∧
      (convert_retry_config cfg).adaptive_chunks = cfg.adaptive_chunks ∧
      (convert_retry_config cfg).aggressive_gc = cfg.aggressive_gc ∧
      (convert_retry_config cfg).single_band_mode = cfg.single_band_mode ∧
      (convert_retry_config cfg).cleanup_immediate = cfg.cleanup_immediate ∧
      (convert_retry_config cfg).max_retries = cfg.max_retries ∧
      (convert_retry_config cfg).use_whole_file_processing =
        cfg.use_whole_file_processing ∧
      (convert_retry_config cfg).min_chunk_size = cfg.min_chunk_size ∧
      (convert_retry_config cfg).max_chunk_size = cfg.max_chunk_size) := by
  have ht : retry_trigger streamingChunkErrorMsg = true := by decide
  refine ⟨?_, ?_, ?_, ?_, ?_, ?_⟩
  · intro env srcName src_count width height chunk_size src_nodata cfg
      dst_nodata e he
    exact process_with_fixed_chunks_errIsStreaming env srcName src_count width
      height chunk_size src_nodata cfg dst_nodata e he
  · intro env srcName sn dn cfg width height cs band st h
    exact processBand_absorb env srcName sn dn cfg width height cs band st h
  · intro α f cfg hf
    simp [retry_with_download, hf, ht]
  · intro α f cfg e hf hft
    simp [retry_with_download, hf, hft]
  · intro cfg
    have h1 : (strHasSub "streaming_chunk_error" (lowerStr streamingChunkErrorMsg)
        || strHasSub "chunk and warp" (lowerStr streamingChunkErrorMsg)) = true := by
      decide
    simp [convert_retry_condition, h1]
  · intro cfg
    exact ⟨rfl, rfl, rfl, rfl, rfl, rfl, rfl, rfl, rfl, rfl, rfl, rfl, rfl⟩

/-- Concrete instantiation: a pending error freezes the band processor. -/
theorem streaming_abort_and_retry_witness :
    processBand envOkAll "f.tif" none none get_memory_safe_config 1 1 1 1
      ⟨0, 0, [], some "boom"⟩ = ⟨0, 0, [], some "boom"⟩ :=
  streaming_abort_and_retry.2.1 envOkAll "f.tif" none none
    get_memory_safe_config 1 1 1 1 ⟨0, 0, [], some "boom"⟩ rfl

/-- Counterexample to C4 as stated: `convert_to_cog`'s retry handler does
not catch exactly the streaming signal — it also fires on a plain
"chunk and warp" failure message, which does not carry
"STREAMING_CHUNK_ERROR". -/
theorem convert_retry_catches_nonsignal :
    convert_retry_condition "chunk and warp error"
      (get_adaptive_chunk_config 500) = true ∧
    retry_trigger "chunk and warp error" = false := by
  decide

lemma bandStep_absorb {α : Type} (readChunk : Window → Except String α)
    (processing_func : Option (α → Except String α))
    (writeChunk : Window → α → Except String Unit)
    (st : BandSt α) (w : Window) (h : st.aborted = true) :
    bandStep readChunk processing_func writeChunk st w = st := by
  simp [bandStep, h]

lemma bandfold_absorb {α : Type} (readChunk : Window → Except String α)
    (processing_func : Option (α → Except String α))
    (writeChunk : Window → α → Except String Unit) :
    ∀ (ws : List Window) (st : BandSt α), st.aborted = true →
      ws.foldl (bandStep readChunk processing_func writeChunk) st = st := by
  intro ws
  induction ws with
  | nil => intro st _; rfl
  | cons w t ih =>
      intro st h
      simp only [List.foldl_cons,
        bandStep_absorb readChunk processing_func writeChunk st w h]
      exact ih st h

lemma bandfold_spec {α : Type} (readChunk : Window → Except String α)
    (processing_func : Option (α → Except String α))
    (writeChunk : Window → α → Except String Unit) :
    ∀ (ws : List Window) (st : BandSt α),
      st.aborted = false → st.processed_chunks ≤ st.total_chunks →
      (((ws.foldl (bandStep readChunk processing_func writeChunk) st).aborted
          = false ∧
        (ws.foldl (bandStep readChunk processing_func writeChunk)
            st).processed_chunks =
          (ws.foldl (bandStep readChunk processing_func writeChunk)
            st).total_chunks) ↔
        (st.processed_chunks = st.total_chunks ∧
          ∀ w ∈ ws, chunkSuccess readChunk processing_func writeChunk w)) := by
  intro ws
  induction ws with
  | nil =>
      intro st h _
      simp [h]
  | cons w t ih =>
      intro st h hle
      simp only [List.foldl_cons]
      cases hpsc : process_single_chunk readChunk processing_func w with
      | none =>
          have hstep : bandStep readChunk processing_func writeChunk st w =
              { st with total_chunks := st.total_chunks + 1 } := by
            simp [bandStep, h, hpsc]
          rw [hstep, ih { st with total_chunks := st.total_chunks + 1 } h
            (by simp; omega)]
          constructor
          · rintro ⟨h1, _⟩
            simp at h1
            omega
          · rintro ⟨_, hall⟩
            obtain ⟨d, hd, _⟩ := hall w (List.mem_cons_self w t)
            rw [hpsc] at hd
            cases hd
      | some d =>
          cases hw : writeChunk w d with
          | error msg =>
              have hstep : bandStep readChunk processing_func writeChunk st w =
                  { st with total_chunks := st.total_chunks + 1,
                            aborted := true } := by
                simp [bandStep, h, hpsc, hw]
              rw [hstep, bandfold_absorb readChunk processing_func writeChunk t
                _ rfl]
              constructor
              · rintro ⟨h1, _⟩
                cases h1
              · rintro ⟨_, hall⟩
                obtain ⟨d', hd', hw'⟩ := hall w (List.mem_cons_self w t)
                rw [hpsc] at hd'
                injection hd' with hd'
                subst hd'
                rw [hw] at hw'
                cases hw'
          | ok u =>
              cases u
              have hstep : bandStep readChunk processing_func writeChunk st w =
                  { st with total_chunks := st.total_chunks + 1,
                            processed_chunks := st.processed_chunks + 1,
                            writes := st.writes ++ [(w, d)] } := by
                simp [bandStep, h, hpsc, hw]
              have hab2 : (bandStep readChunk processing_func writeChunk
                  st w).aborted = false := by
                rw [hstep]
                exact h
              have hle2 : (bandStep readChunk processing_func writeChunk
                    st w).processed_chunks ≤
                  (bandStep readChunk processing_func writeChunk
                    st w).total_chunks := by
                rw [hstep]
                simp
                omega
              rw [ih (bandStep readChunk processing_func writeChunk st w)
                hab2 hle2, hstep]
              constructor
              · rintro ⟨h1, hall⟩
                simp at h1
                refine ⟨by omega, ?_⟩
                intro w' hw'
                rcases List.mem_cons.mp hw' with rfl | hw'
                · exact ⟨d, hpsc, hw⟩
                · exact hall w' hw'
              · rintro ⟨h1, hall⟩
                refine ⟨by simp; omega, ?_⟩
                intro w' hw'
                exact hall w' (List.mem_cons_of_mem w hw')

lemma bandfold_writes {α : Type} (readChunk : Window → Except String α)
    (processing_func : Option (α → Except String α))
    (writeChunk : Window → α → Except String Unit) :
    ∀ (ws : List Window) (st : BandSt α),
      (∀ p ∈ st.writes,
        process_single_chunk readChunk processing_func p.1 = some p.2) →
      ∀ p ∈ (ws.foldl (bandStep readChunk processing_func writeChunk)
          st).writes,
        process_single_chunk readChunk processing_func p.1 = some p.2 := by
  intro ws
  induction ws with
  | nil => intro st hst; exact hst
  | cons w t ih =>
      intro st hst
      simp only [List.foldl_cons]
      refine ih _ ?_
      by_cases h : st.aborted = true
      · rw [bandStep_absorb readChunk processing_func writeChunk st w h]
        exact hst
      · have h' : st.aborted = false := by simpa using h
        cases hpsc : process_single_chunk readChunk processing_func w with
        | none =>
            have hstep : bandStep readChunk processing_func writeChunk st w =
                { st with total_chunks := st.total_chunks + 1 } := by
              simp [bandStep, h', hpsc]
            rw [hstep]
            exact hst
        | some d =>
            cases hw : writeChunk w d with
            | error msg =>
                have hstep : bandStep readChunk processing_func writeChunk st w =
                    { st with total_chunks := st.total_chunks + 1,
                              aborted := true } := by
                  simp [bandStep, h', hpsc, hw]
                rw [hstep]
                exact hst
            | ok u =>
                cases u
                have hstep : bandStep readChunk processing_func writeChunk st w =
                    { st with total_chunks := st.total_chunks + 1,
                              processed_chunks := st.processed_chunks + 1,
                              writes := st.writes ++ [(w, d)] } := by
                  simp [bandStep, h', hpsc, hw]
                rw [hstep]
                intro p hp
                rcases List.mem_append.mp hp with hp | hp
                · exact hst p hp
                · rcases List.mem_singleton.mp hp with rfl
                  exact hpsc

/-- C10.  Band-level chunk helper: `process_band_with_chunks` returns
`True` iff every chunk of the band grid is read, processed and written
successfully; every destination write it performs comes from a chunk whose
processing returned a value (so a chunk whose processing raised — turned
into `None` by `process_single_chunk` — is never written, and no exception
escapes); and a failing read makes `process_single_chunk` return `None`. -/
theorem band_chunks_success_iff {α : Type}
    (readChunk : Window → Except String α)
    (processing_func : Option (α → Except String α))
    (writeChunk : Window → α → Except String Unit)
    (width height chunk_size : ℕ) (_hcs : 0 < chunk_size) :
    ((process_band_with_chunks readChunk processing_func writeChunk width
        height chunk_size).1 = true ↔
      ∀ w ∈ bandWindows width height chunk_size,
        chunkSuccess readChunk processing_func writeChunk w) ∧
    (∀ p ∈ (process_band_with_chunks readChunk processing_func writeChunk
        width height chunk_size).2,
      process_single_chunk readChunk processing_func p.1 = some p.2) ∧
    (∀ w, process_single_chunk readChunk processing_func w = none →
      ∀ d, (w, d) ∉ (process_band_with_chunks readChunk processing_func
        writeChunk width height chunk_size).2) ∧
    (∀ w msg, readChunk w = Except.error msg →
      process_single_chunk readChunk processing_func w = none) := by
  have hwr := bandfold_writes readChunk processing_func writeChunk
    (bandWindows width height chunk_size) ⟨0, 0, [], false⟩
    (by intro p hp; cases hp)
  refine ⟨?_, ?_, ?_, ?_⟩
  · have hspec := bandfold_spec readChunk processing_func writeChunk
      (bandWindows width height chunk_size) ⟨0, 0, [], false⟩ rfl (le_refl 0)
    simp only [true_and] at hspec
    unfold process_band_with_chunks
    rw [← hspec]
    by_cases hab : ((bandWindows width height chunk_size).foldl
        (bandStep readChunk processing_func writeChunk)
        ⟨0, 0, [], false⟩).aborted
    · simp [hab]
    · simp [hab, Nat.beq_eq_true_eq]
  · intro p hp
    exact hwr p hp
  · intro w hnone d hmem
    have := hwr (w, d) hmem
    rw [hnone] at this
    cases this
  · intro w msg h
    simp [process_single_chunk, h]

/-- Concrete instantiation of the band helper theorem: a read that always
fails yields a `False` result over a 2x2 single-chunk grid. -/
theorem band_chunks_success_iff_witness :
    process_single_chunk
      (fun _ : Window => (Except.error "read failed" : Except String ℕ))
      none ⟨0, 0, 2, 2⟩ = none :=
  (band_chunks_success_iff
    (fun _ : Window => (Except.error "read failed" : Except String ℕ))
    none (fun _ _ => Except.ok ()) 2 2 2 (by decide)).2.2.2
    ⟨0, 0, 2, 2⟩ "read failed" rfl
